import Mathlib

/-!
Verification of the OpenJules Mission Runtime against its specification.

This file shallowly embeds the parts of the backend that the checked
properties are about:

* `apps/backend/src/command-guard.ts` — the Command Guard: built-in deny
  rules (as JS regexes, embedded via a small backtracking regex engine),
  heredoc stripping, quoted-string stripping, ready-pattern guessing and
  the `guardCommand` pipeline;
* `apps/backend/src/utils.ts` (shared utilities) — `truncate`,
  `retryWithBackoff`;
* the Mission Worker (`executeStep`, the step loop of `runMission`,
  `removePendingMissionSteps`, `createStepsFromPlan`);
* `apps/backend/src/sandbox-driver.ts` — `resolveSandboxOptions`
  (persist flag), `teardown`, and discrete-time models of
  `command` / `backgroundCommand` settling.

JS strings are modelled as Lean `String`s (one `Char` per UTF-16 code
unit; every string involved is ASCII apart from the ellipsis character).
Asynchronous effects (sandbox exec results, thrown exceptions, AI-review
responses, wall-clock durations) are passed in as explicit oracle
parameters, so every embedded operation is a pure, executable function.
-/

set_option autoImplicit false

namespace OpenJules

/-! ### Characters that the hygiene of this file forces us to name -/

/-- The single-quote character. -/
def sqc : Char := Char.ofNat 39

/-- The double-quote character. -/
def dqc : Char := Char.ofNat 34

/-- The backtick character. -/
def btc : Char := Char.ofNat 96

/-- The backslash character. -/
def bslc : Char := Char.ofNat 92

/-- Left curly brace. -/
def lbc : Char := Char.ofNat 123

/-- Right curly brace. -/
def rbc : Char := Char.ofNat 125

/-- The horizontal-ellipsis character appended by `truncate`. -/
def ellipsisChar : Char := Char.ofNat 8230

/-! ### JS-style whitespace, trim, split and join

`String.prototype.trim` and the regex class `\s` both cover the ASCII
whitespace characters (space, tab, LF, VT, FF, CR) plus NBSP and further
Unicode spaces; all strings handled here only ever contain the ASCII
ones (plus NBSP, included for good measure). -/

/-- Whitespace in the sense of JS `trim` and the regex class `\s`. -/
def isWsChar (c : Char) : Bool :=
  c = ' ' || c = '\t' || c = '\n' || c = '\r' ||
  c = Char.ofNat 11 || c = Char.ofNat 12 || c = Char.ofNat 160

/-- Drop leading JS whitespace. -/
def jsTrimLeft (l : List Char) : List Char := l.dropWhile isWsChar

/-- JS `String.prototype.trim` on a list of characters. -/
def jsTrimList (l : List Char) : List Char :=
  ((jsTrimLeft l).reverse.dropWhile isWsChar).reverse

/-- JS `String.prototype.trim`. -/
def jsTrim (s : String) : String := String.mk (jsTrimList s.data)

/-- JS `cmd.split('\n')` on a list of characters: split at every newline,
keeping empty segments (so the result is never empty). -/
def splitOnNl : List Char → List (List Char)
  | [] => [[]]
  | c :: cs =>
    if c = '\n' then [] :: splitOnNl cs
    else
      match splitOnNl cs with
      | [] => [[c]]
      | l :: ls => (c :: l) :: ls

/-- JS `lines.join('\n')`. -/
def joinNl : List (List Char) → List Char
  | [] => []
  | [l] => l
  | l :: ls => l ++ '\n' :: joinNl ls

theorem splitOnNl_ne_nil (l : List Char) : splitOnNl l ≠ [] := by
  cases l with
  | nil => simp [splitOnNl]
  | cons c cs =>
    simp only [splitOnNl]
    split
    · simp
    · cases h : splitOnNl cs <;> simp

theorem splitOnNl_append (xs ys : List Char) :
    splitOnNl (xs ++ '\n' :: ys) = splitOnNl xs ++ splitOnNl ys := by
  induction xs with
  | nil => simp [splitOnNl]
  | cons c cs ih =>
    simp only [List.cons_append, splitOnNl]
    by_cases hc : c = '\n'
    · rw [if_pos hc, if_pos hc, List.append_eq, ih]
      rfl
    · rw [if_neg hc, if_neg hc, List.append_eq, ih]
      cases hsp : splitOnNl cs with
      | nil => exact absurd hsp (splitOnNl_ne_nil cs)
      | cons l ls => simp

/-- A newline-free list splits to the single segment it is. -/
theorem splitOnNl_no_nl (l : List Char) (h : '\n' ∉ l) : splitOnNl l = [l] := by
  induction l with
  | nil => simp [splitOnNl]
  | cons c cs ih =>
    simp only [List.mem_cons, not_or] at h
    have hc : c ≠ '\n' := fun hh => h.1 hh.symm
    simp only [splitOnNl, if_neg hc, ih h.2]

theorem joinNl_splitOnNl (l : List Char) : joinNl (splitOnNl l) = l := by
  induction l with
  | nil => simp [splitOnNl, joinNl]
  | cons c cs ih =>
    by_cases hc : c = '\n'
    · subst hc
      simp only [splitOnNl, if_pos rfl]
      cases hsp : splitOnNl cs with
      | nil => exact absurd hsp (splitOnNl_ne_nil cs)
      | cons l ls =>
        rw [hsp] at ih
        simp only [joinNl]
        cases ls <;> simp_all [joinNl]
    · simp only [splitOnNl, if_neg hc]
      cases hsp : splitOnNl cs with
      | nil => exact absurd hsp (splitOnNl_ne_nil cs)
      | cons l ls =>
        rw [hsp] at ih
        cases ls <;> simp_all [joinNl]

/-- `jsTrimList` does nothing when the first and last characters are not
whitespace. -/
theorem jsTrimList_id (l : List Char)
    (h1 : ∀ c, l.head? = some c → isWsChar c = false)
    (h2 : ∀ c, l.getLast? = some c → isWsChar c = false) :
    jsTrimList l = l := by
  unfold jsTrimList jsTrimLeft
  have hl : l.dropWhile isWsChar = l := by
    cases l with
    | nil => rfl
    | cons c cs =>
      rw [List.dropWhile_cons_of_neg]
      simp [h1 c rfl]
  rw [hl]
  have hr : l.reverse.dropWhile isWsChar = l.reverse := by
    cases hrev : l.reverse with
    | nil => rfl
    | cons c cs =>
      rw [List.dropWhile_cons_of_neg]
      have : l.getLast? = some c := by
        rw [← List.head?_reverse, hrev]
        rfl
      simp [h2 c this]
  rw [hr, List.reverse_reverse]

/-! ### A small backtracking regex engine

Just enough of JS `RegExp` semantics for the guard's patterns: literals,
character classes (`\s`, `\S`, `\d`, ranges, negation), the any-char dot
(which in JS does not match line terminators), concatenation,
alternation, greedy `*`, word boundaries `\b`, the anchors `^`/`$`
(without the `m` flag, so they anchor to the whole input), and negative
lookahead `(?!...)`.  Matching is fuel-bounded; `reTest` supplies fuel
that is ample for every pattern/input pair evaluated in this file. -/

/-- One item of a character class. -/
inductive ClsItem where
  /-- a single character -/
  | one (c : Char)
  /-- a character range `lo-hi` -/
  | rng (lo hi : Char)
  /-- the class escape `\s` -/
  | wsp
  /-- the class escape `\S` -/
  | nws
  /-- the class escape `\d` -/
  | dig
deriving DecidableEq

/-- Regular expressions as used by the guard's deny rules. -/
inductive RE where
  /-- the empty regex -/
  | eps
  /-- a literal character -/
  | lit (c : Char)
  /-- a character class `[...]` / `[^...]` -/
  | cls (neg : Bool) (items : List ClsItem)
  /-- `.` — any character except a line terminator -/
  | dot
  /-- concatenation -/
  | cat (a b : RE)
  /-- alternation `a|b` -/
  | alt (a b : RE)
  /-- greedy `a*` -/
  | star (a : RE)
  /-- word boundary `\b` -/
  | wb
  /-- start anchor `^` (no `m` flag) -/
  | bos
  /-- end anchor `$` (no `m` flag) -/
  | eos
  /-- negative lookahead `(?!a)` -/
  | nla (a : RE)
deriving DecidableEq

/-- Case-insensitive-aware character comparison (the `i` flag). -/
def chEq (ic : Bool) (a b : Char) : Bool :=
  if ic then a.toLower = b.toLower else a = b

/-- Word characters for `\b` (JS: `[A-Za-z0-9_]`). -/
def isWordChar (c : Char) : Bool :=
  (('a' ≤ c && c ≤ 'z') || ('A' ≤ c && c ≤ 'Z') || ('0' ≤ c && c ≤ '9') || c = '_')

/-- Does one class item accept a character (honouring the `i` flag)? -/
def clsItemMatch (ic : Bool) (it : ClsItem) (c : Char) : Bool :=
  match it with
  | .one d => chEq ic c d
  | .rng lo hi =>
    (lo ≤ c && c ≤ hi) ||
    (ic && lo ≤ c.toLower && c.toLower ≤ hi) ||
    (ic && lo ≤ c.toUpper && c.toUpper ≤ hi)
  | .wsp => isWsChar c
  | .nws => !isWsChar c
  | .dig => '0' ≤ c && c ≤ '9'

/-- Does a character class accept a character? -/
def clsMatch (ic : Bool) (neg : Bool) (items : List ClsItem) (c : Char) : Bool :=
  let hit := items.any (fun it => clsItemMatch ic it c)
  if neg then !hit else hit

/-- Is this (optional) character a word character?  `none` stands for the
edge of the input. -/
def isWordOpt : Option Char → Bool
  | none => false
  | some c => isWordChar c

/-- Fuel-bounded CPS matcher.  `prev` is the character just before the
current position (`none` at the start of the input), needed for `\b` and
`^`.  The continuation receives the updated `prev` and the rest of the
input.  Greedy `star` tries the longer match first, as JS does. -/
def reM (ic : Bool) : Nat → RE → Option Char → List Char →
    (Option Char → List Char → Bool) → Bool
  | 0, _, _, _, _ => false
  | Nat.succ fuel, re, prev, s, k =>
    match re with
    | .eps => k prev s
    | .lit c =>
      match s with
      | [] => false
      | a :: rest => if chEq ic a c then k (some a) rest else false
    | .cls neg items =>
      match s with
      | [] => false
      | a :: rest => if clsMatch ic neg items a then k (some a) rest else false
    | .dot =>
      match s with
      | [] => false
      | a :: rest => if a = '\n' || a = '\r' then false else k (some a) rest
    | .cat r1 r2 => reM ic fuel r1 prev s (fun p2 s2 => reM ic fuel r2 p2 s2 k)
    | .alt r1 r2 => reM ic fuel r1 prev s k || reM ic fuel r2 prev s k
    | .star r =>
      reM ic fuel r prev s (fun p2 s2 => reM ic fuel (RE.star r) p2 s2 k) || k prev s
    | .wb => if isWordOpt prev != isWordOpt (s.head?.map id) then k prev s else false
    | .bos => if prev = none then k prev s else false
    | .eos => if s = [] then k prev s else false
    | .nla r => if reM ic fuel r prev s (fun _ _ => true) then false else k prev s

/-- Structural size of a regex, used only to compute ample fuel. -/
def reSize : RE → Nat
  | .eps | .lit _ | .cls _ _ | .dot | .wb | .bos | .eos => 1
  | .cat a b | .alt a b => reSize a + reSize b + 1
  | .star a | .nla a => reSize a + 1

/-- Try to match `re` at the current position or at any later one
(JS `RegExp.prototype.test` is unanchored). -/
def reSearch (ic : Bool) (fuel : Nat) (re : RE) : Option Char → List Char → Bool
  | prev, s =>
    reM ic fuel re prev s (fun _ _ => true) ||
      match s with
      | [] => false
      | c :: rest => reSearch ic fuel re (some c) rest

/-- JS `re.test(s)` (with `i` flag when `ic` is set). -/
def reTest (ic : Bool) (re : RE) (s : String) : Bool :=
  reSearch ic ((reSize re + 2) * (s.data.length + 2) + 8) re none s.data

/-! #### Shorthand used to transcribe the guard's regexes -/

/-- Concatenation of a list of regexes. -/
def rcat (l : List RE) : RE := l.foldr RE.cat RE.eps

/-- A sequence of literal characters. -/
def rstr (s : String) : RE := rcat (s.data.map RE.lit)

/-- Alternation of a non-empty list of regexes. -/
def ralt (l : List RE) : RE :=
  match l with
  | [] => RE.eps
  | [r] => r
  | r :: rs => RE.alt r (ralt rs)

/-- `r?` -/
def ropt (r : RE) : RE := RE.alt r RE.eps

/-- `r+` -/
def rplus (r : RE) : RE := RE.cat r (RE.star r)

/-- `\s` -/
def wsRe : RE := RE.cls false [ClsItem.wsp]

/-- `\s*` -/
def wsStar : RE := RE.star wsRe

/-- `\s+` -/
def wsPlus : RE := rplus wsRe

/-- `[a-zA-Z]` -/
def alphaCls : RE := RE.cls false [ClsItem.rng 'a' 'z', ClsItem.rng 'A' 'Z']

/-- `\d` -/
def digCls : RE := RE.cls false [ClsItem.dig]

/-- `.*` -/
def dotStar : RE := RE.star RE.dot

/-! ### Built-in deny rules (`DENY_RULES` in `command-guard.ts`)

Each rule transcribes one entry of the source array: id, category flag,
regex (as an `RE` tree mirroring the JS pattern character for character)
and reason string.  All patterns carry the `i` flag except
`backtick-injection` and `fork-bomb`. -/

/-- The five `blockX` categories of `CommandGuardSettings`. -/
inductive RuleCategory where
  | destructive
  | hanging
  | networkExfil
  | privilegeEsc
  | shellInjection
deriving DecidableEq

/-- One entry of `DENY_RULES`. -/
structure DenyRule where
  id : String
  category : RuleCategory
  pattern : RE
  /-- whether the JS regex carries the `i` flag -/
  icase : Bool
  reason : String
deriving DecidableEq

/-- `/\brm\s+(-[a-zA-Z]*r[a-zA-Z]*f|--force\s+--recursive|-[a-zA-Z]*f[a-zA-Z]*r)\s+(\/|~\/?\s|\.\.\/)/i` -/
def rmRfRootRule : DenyRule :=
  { id := "rm-rf-root", category := .destructive, icase := true,
    pattern := rcat [RE.wb, rstr "rm", wsPlus,
      ralt [rcat [RE.lit '-', RE.star alphaCls, RE.lit 'r', RE.star alphaCls, RE.lit 'f'],
            rcat [rstr "--force", wsPlus, rstr "--recursive"],
            rcat [RE.lit '-', RE.star alphaCls, RE.lit 'f', RE.star alphaCls, RE.lit 'r']],
      wsPlus,
      ralt [RE.lit '/', rcat [RE.lit '~', ropt (RE.lit '/'), wsRe], rstr "../"]],
    reason := "Recursive forced delete targeting root, home, or parent directory" }

/-- `/\brm\s+(-[a-zA-Z]*r[a-zA-Z]*f|--force\s+--recursive)\s+\*/i` -/
def rmRfWildcardRule : DenyRule :=
  { id := "rm-rf-wildcard", category := .destructive, icase := true,
    pattern := rcat [RE.wb, rstr "rm", wsPlus,
      ralt [rcat [RE.lit '-', RE.star alphaCls, RE.lit 'r', RE.star alphaCls, RE.lit 'f'],
            rcat [rstr "--force", wsPlus, rstr "--recursive"]],
      wsPlus, RE.lit '*'],
    reason := "Recursive forced delete with glob wildcard" }

/-- `/\bmkfs\b/i` -/
def mkfsRule : DenyRule :=
  { id := "mkfs", category := .destructive, icase := true,
    pattern := rcat [RE.wb, rstr "mkfs", RE.wb],
    reason := "Filesystem formatting command" }

/-- `/\bdd\b.*\bof=\/dev\//i` -/
def ddOfRule : DenyRule :=
  { id := "dd-of", category := .destructive, icase := true,
    pattern := rcat [RE.wb, rstr "dd", RE.wb, dotStar, RE.wb, rstr "of=/dev/"],
    reason := "Low-level disk write via dd" }

/-- `/\bshred\b/i` -/
def shredRule : DenyRule :=
  { id := "shred", category := .destructive, icase := true,
    pattern := rcat [RE.wb, rstr "shred", RE.wb],
    reason := "File shredding command" }

/-- `/\bwipefs\b/i` -/
def wipefsRule : DenyRule :=
  { id := "wipefs", category := .destructive, icase := true,
    pattern := rcat [RE.wb, rstr "wipefs", RE.wb],
    reason := "Filesystem metadata wipe" }

/-- `/\bnode\s+(?!.*--eval)(?!.*-e\b)\S+\.(js|ts|mjs|cjs)\b/i` -/
def nodeServerFileRule : DenyRule :=
  { id := "node-server-file", category := .hanging, icase := true,
    pattern := rcat [RE.wb, rstr "node", wsPlus,
      RE.nla (rcat [dotStar, rstr "--eval"]),
      RE.nla (rcat [dotStar, rstr "-e", RE.wb]),
      rplus (RE.cls false [ClsItem.nws]), RE.lit '.',
      ralt [rstr "js", rstr "ts", rstr "mjs", rstr "cjs"], RE.wb],
    reason := "Running a Node.js file directly often starts a long-running server. Use background=true with a readyPattern if intentional." }

/-- `/\bnpm\s+start\b/i` -/
def npmStartRule : DenyRule :=
  { id := "npm-start", category := .hanging, icase := true,
    pattern := rcat [RE.wb, rstr "npm", wsPlus, rstr "start", RE.wb],
    reason := "`npm start` typically starts a long-running server. Mark the step as background=true with an appropriate readyPattern." }

/-- `/\bnpm\s+run\s+(dev|serve|watch)\b/i` -/
def npmRunDevRule : DenyRule :=
  { id := "npm-run-dev", category := .hanging, icase := true,
    pattern := rcat [RE.wb, rstr "npm", wsPlus, rstr "run", wsPlus,
      ralt [rstr "dev", rstr "serve", rstr "watch"], RE.wb],
    reason := "Dev/serve/watch scripts are long-running. Mark the step as background=true with a readyPattern." }

/-- `/\byarn\s+(start|dev|serve)\b/i` -/
def yarnStartDevRule : DenyRule :=
  { id := "yarn-start-dev", category := .hanging, icase := true,
    pattern := rcat [RE.wb, rstr "yarn", wsPlus,
      ralt [rstr "start", rstr "dev", rstr "serve"], RE.wb],
    reason := "yarn start/dev/serve are long-running. Mark the step as background=true with a readyPattern." }

/-- `/\bpnpm\s+(start|dev|serve)\b/i` -/
def pnpmStartDevRule : DenyRule :=
  { id := "pnpm-start-dev", category := .hanging, icase := true,
    pattern := rcat [RE.wb, rstr "pnpm", wsPlus,
      ralt [rstr "start", rstr "dev", rstr "serve"], RE.wb],
    reason := "pnpm start/dev/serve are long-running. Mark the step as background=true with a readyPattern." }

/-- `/\bpython[23]?\s+.*\b(server|app|manage\.py\s+runserver)\b/i` -/
def pythonServerRule : DenyRule :=
  { id := "python-server", category := .hanging, icase := true,
    pattern := rcat [RE.wb, rstr "python",
      ropt (RE.cls false [ClsItem.one '2', ClsItem.one '3']), wsPlus, dotStar, RE.wb,
      ralt [rstr "server", rstr "app", rcat [rstr "manage.py", wsPlus, rstr "runserver"]],
      RE.wb],
    reason := "Python server command detected. Mark the step as background=true if intentional." }

/-- `/\btail\s+(-[a-zA-Z]*f|--follow)\b/i` -/
def tailFRule : DenyRule :=
  { id := "tail-f", category := .hanging, icase := true,
    pattern := rcat [RE.wb, rstr "tail", wsPlus,
      ralt [rcat [RE.lit '-', RE.star alphaCls, RE.lit 'f'], rstr "--follow"], RE.wb],
    reason := "tail -f never terminates. Use `tail -n` to get last N lines instead." }

/-- `/\bsleep\s+(\d{4,}|infinity)\b/i` -/
def sleepLargeRule : DenyRule :=
  { id := "sleep-large", category := .hanging, icase := true,
    pattern := rcat [RE.wb, rstr "sleep", wsPlus,
      ralt [rcat [digCls, digCls, digCls, digCls, RE.star digCls], rstr "infinity"], RE.wb],
    reason := "Excessive sleep duration detected" }

/-- `/\byes\b/i` -/
def yesPipeRule : DenyRule :=
  { id := "yes-pipe", category := .hanging, icase := true,
    pattern := rcat [RE.wb, rstr "yes", RE.wb],
    reason := "`yes` produces infinite output and can exhaust resources" }

/-- `/^\s*cat\s*$/i` -/
def catNoFileRule : DenyRule :=
  { id := "cat-no-file", category := .hanging, icase := true,
    pattern := rcat [RE.bos, wsStar, rstr "cat", wsStar, RE.eos],
    reason := "Bare `cat` reads from stdin and will hang indefinitely" }

/-- `/\bcurl\b.*(-F\b|--upload-file|-T\b|--data.*@)/i` -/
def curlUploadRule : DenyRule :=
  { id := "curl-upload", category := .networkExfil, icase := true,
    pattern := rcat [RE.wb, rstr "curl", RE.wb, dotStar,
      ralt [rcat [rstr "-F", RE.wb], rstr "--upload-file", rcat [rstr "-T", RE.wb],
            rcat [rstr "--data", dotStar, RE.lit '@']]],
    reason := "curl with file upload detected — potential data exfiltration" }

/-- `/\b(nc|ncat|netcat)\b.*(-l|-e|-c)/i` -/
def ncListenRule : DenyRule :=
  { id := "nc-listen", category := .networkExfil, icase := true,
    pattern := rcat [RE.wb, ralt [rstr "nc", rstr "ncat", rstr "netcat"], RE.wb, dotStar,
      ralt [rstr "-l", rstr "-e", rstr "-c"]],
    reason := "Netcat with listen/exec mode — potential reverse shell" }

/-- `/\bwget\b.*--post/i` -/
def wgetPostRule : DenyRule :=
  { id := "wget-post", category := .networkExfil, icase := true,
    pattern := rcat [RE.wb, rstr "wget", RE.wb, dotStar, rstr "--post"],
    reason := "wget with POST data — potential data exfiltration" }

/-- `/\b(scp|rsync)\b.*@/i` -/
def scpRsyncExtRule : DenyRule :=
  { id := "scp-rsync-ext", category := .networkExfil, icase := true,
    pattern := rcat [RE.wb, ralt [rstr "scp", rstr "rsync"], RE.wb, dotStar, RE.lit '@'],
    reason := "Remote copy commands targeting external hosts" }

/-- `/\bsudo\b/i` -/
def sudoRule : DenyRule :=
  { id := "sudo", category := .privilegeEsc, icase := true,
    pattern := rcat [RE.wb, rstr "sudo", RE.wb],
    reason := "sudo — privilege escalation not allowed in sandbox" }

/-- `/\bsu\s+(root|-)\b/i` -/
def suRootRule : DenyRule :=
  { id := "su-root", category := .privilegeEsc, icase := true,
    pattern := rcat [RE.wb, rstr "su", wsPlus, ralt [rstr "root", RE.lit '-'], RE.wb],
    reason := "su to root — privilege escalation not allowed" }

/-- `/\bchmod\s+([0-7]*7[0-7]{2}|[augo]*\+[rwxst]*s)/i` -/
def chmodDangerousRule : DenyRule :=
  { id := "chmod-dangerous", category := .privilegeEsc, icase := true,
    pattern := rcat [RE.wb, rstr "chmod", wsPlus,
      ralt [rcat [RE.star (RE.cls false [ClsItem.rng '0' '7']), RE.lit '7',
                  RE.cls false [ClsItem.rng '0' '7'], RE.cls false [ClsItem.rng '0' '7']],
            rcat [RE.star (RE.cls false [ClsItem.one 'a', ClsItem.one 'u', ClsItem.one 'g', ClsItem.one 'o']),
                  RE.lit '+',
                  RE.star (RE.cls false [ClsItem.one 'r', ClsItem.one 'w', ClsItem.one 'x', ClsItem.one 's', ClsItem.one 't']),
                  RE.lit 's']]],
    reason := "Dangerous chmod (world-writable or setuid/setgid)" }

/-- `/\bchown\s+(root|0)\b/i` -/
def chownRootRule : DenyRule :=
  { id := "chown-root", category := .privilegeEsc, icase := true,
    pattern := rcat [RE.wb, rstr "chown", wsPlus, ralt [rstr "root", RE.lit '0'], RE.wb],
    reason := "chown to root — not allowed in sandbox" }

/-- `/\beval\s/i` -/
def evalExecRule : DenyRule :=
  { id := "eval-exec", category := .shellInjection, icase := true,
    pattern := rcat [RE.wb, rstr "eval", wsRe],
    reason := "eval can execute arbitrary injected code" }

/-- ``/`[^`]*`/`` (no `i` flag) -/
def backtickInjectionRule : DenyRule :=
  { id := "backtick-injection", category := .shellInjection, icase := false,
    pattern := rcat [RE.lit btc, RE.star (RE.cls true [ClsItem.one btc]), RE.lit btc],
    reason := "Back-tick command substitution — use $() instead or avoid injection vectors" }

/-- `/:\(\)\s*\{\s*:\|:&\s*\}/` (no `i` flag) -/
def forkBombRule : DenyRule :=
  { id := "fork-bomb", category := .shellInjection, icase := false,
    pattern := rcat [RE.lit ':', RE.lit '(', RE.lit ')', wsStar, RE.lit lbc, wsStar,
      RE.lit ':', RE.lit '|', RE.lit ':', RE.lit '&', wsStar, RE.lit rbc],
    reason := "Fork bomb detected" }

/-- `/\bbase64\s+(-d|--decode)\b.*\|\s*(sh|bash|zsh)/i` -/
def base64DecodePipeRule : DenyRule :=
  { id := "base64-decode-pipe", category := .shellInjection, icase := true,
    pattern := rcat [RE.wb, rstr "base64", wsPlus, ralt [rstr "-d", rstr "--decode"], RE.wb,
      dotStar, RE.lit '|', wsStar, ralt [rstr "sh", rstr "bash", rstr "zsh"]],
    reason := "base64-decoded payload piped to shell — obfuscated code execution" }

/-- `/\bcurl\b[^|]*\|\s*(sh|bash|zsh|source)\b/i` -/
def curlPipeShellRule : DenyRule :=
  { id := "curl-pipe-shell", category := .shellInjection, icase := true,
    pattern := rcat [RE.wb, rstr "curl", RE.wb, RE.star (RE.cls true [ClsItem.one '|']),
      RE.lit '|', wsStar, ralt [rstr "sh", rstr "bash", rstr "zsh", rstr "source"], RE.wb],
    reason := "Piping remote content directly to shell" }

/-- `/\bwget\b[^|]*\|\s*(sh|bash|zsh|source)\b/i` -/
def wgetPipeShellRule : DenyRule :=
  { id := "wget-pipe-shell", category := .shellInjection, icase := true,
    pattern := rcat [RE.wb, rstr "wget", RE.wb, RE.star (RE.cls true [ClsItem.one '|']),
      RE.lit '|', wsStar, ralt [rstr "sh", rstr "bash", rstr "zsh", rstr "source"], RE.wb],
    reason := "Piping remote download directly to shell" }

/-- The `DENY_RULES` array, in source order. -/
def DENY_RULES : List DenyRule :=
  [rmRfRootRule, rmRfWildcardRule, mkfsRule, ddOfRule, shredRule, wipefsRule,
   nodeServerFileRule, npmStartRule, npmRunDevRule, yarnStartDevRule, pnpmStartDevRule,
   pythonServerRule, tailFRule, sleepLargeRule, yesPipeRule, catNoFileRule,
   curlUploadRule, ncListenRule, wgetPostRule, scpRsyncExtRule,
   sudoRule, suRootRule, chmodDangerousRule, chownRootRule,
   evalExecRule, backtickInjectionRule, forkBombRule, base64DecodePipeRule,
   curlPipeShellRule, wgetPipeShellRule]

/-! ### Heredoc-aware sanitisation (`stripHeredocBodies`)

`stripHeredocBodies` walks the command line by line.  A line matching
`/<<-?\s*['"]([^'"]+)['"]\s*$/` opens a quoted heredoc; subsequent lines
are dropped until a line whose trim equals the captured delimiter (that
delimiter line is dropped too).  The opener regex is implemented
directly: its structure (`<<`, optional `-`, greedy `\s*`, either quote,
greedy `[^'"]+`, either quote, `\s*`, end of line) is deterministic, so
no backtracking is needed, and the leftmost match is found by scanning
start positions left to right exactly as `String.prototype.match`
does. -/

/-- Match `/<<-?\s*['"]([^'"]+)['"]\s*$/` at the start of `cs`, returning
the captured delimiter. -/
def openerAt (cs : List Char) : Option (List Char) :=
  match cs with
  | '<' :: '<' :: rest =>
    let rest1 := match rest with
      | '-' :: r => r
      | _ => rest
    let rest2 := rest1.dropWhile isWsChar
    match rest2 with
    | q :: rest3 =>
      if q = sqc || q = dqc then
        let content := rest3.takeWhile (fun c => c ≠ sqc && c ≠ dqc)
        match rest3.dropWhile (fun c => c ≠ sqc && c ≠ dqc) with
        | q2 :: rest5 =>
          if content ≠ [] && (q2 = sqc || q2 = dqc) && rest5.dropWhile isWsChar = [] then
            some content
          else none
        | [] => none
      else none
    | [] => none
  | _ => none

/-- Leftmost match of the heredoc opener regex in a line
(`line.match(...)`), returning capture group 1. -/
def heredocOpener : List Char → Option (List Char)
  | [] => none
  | c :: rest =>
    match openerAt (c :: rest) with
    | some d => some d
    | none => heredocOpener rest

/-- The line-by-line loop of `stripHeredocBodies`: second argument is
`insideQuotedHeredoc`, third is `heredocDelimiter`. -/
def stripHeredocAux : List (List Char) → Bool → List Char → List (List Char)
  | [], _, _ => []
  | line :: rest, true, delim =>
    if jsTrimList line = delim then stripHeredocAux rest false []
    else stripHeredocAux rest true delim
  | line :: rest, false, delim =>
    match heredocOpener line with
    | some d => line :: stripHeredocAux rest true d
    | none => line :: stripHeredocAux rest false delim

/-- `stripHeredocBodies` from `command-guard.ts`. -/
def stripHeredocBodies (cmd : String) : String :=
  String.mk (joinNl (stripHeredocAux (splitOnNl cmd.data) false []))

/-! ### Quoted-string stripping (`stripQuotedStrings`)

`cmd.replace(/"(?:[^"\\]|\\.)*"/g, '""').replace(/'[^']*'/g, "''")`.
Both regexes are deterministic (each content position admits at most one
alternative), so global replacement is a single left-to-right scan: at
each position, if a quote opens a complete quoted string, the whole
match is replaced by an empty pair of quotes and scanning resumes after
it; otherwise the character is kept. -/

/-- Parse the body of a double-quoted string after the opening quote:
`(?:[^"\\]|\\.)*"` where `.` does not match a line terminator.  Returns
the suffix after the closing quote. -/
def dqBody : List Char → Option (List Char)
  | [] => none
  | c :: rest =>
    if c = dqc then some rest
    else if c = bslc then
      match rest with
      | [] => none
      | d :: rest2 => if d = '\n' || d = '\r' then none else dqBody rest2
    else dqBody rest

/-- Parse the body of a single-quoted string after the opening quote:
`[^']*'`.  Returns the suffix after the closing quote. -/
def sqBody (cs : List Char) : Option (List Char) :=
  match cs.dropWhile (fun c => c ≠ sqc) with
  | [] => none
  | _ :: r => some r

/-- One global-replace pass for `/"(?:[^"\\]|\\.)*"/g → '""'`. -/
def stripDqAux : Nat → List Char → List Char
  | 0, s => s
  | Nat.succ _, [] => []
  | Nat.succ f, c :: rest =>
    if c = dqc then
      match dqBody rest with
      | some suffix => dqc :: dqc :: stripDqAux f suffix
      | none => c :: stripDqAux f rest
    else c :: stripDqAux f rest

/-- One global-replace pass for `/'[^']*'/g → "''"`. -/
def stripSqAux : Nat → List Char → List Char
  | 0, s => s
  | Nat.succ _, [] => []
  | Nat.succ f, c :: rest =>
    if c = sqc then
      match sqBody rest with
      | some suffix => sqc :: sqc :: stripSqAux f suffix
      | none => c :: stripSqAux f rest
    else c :: stripSqAux f rest

/-- `stripQuotedStrings` from `command-guard.ts`. -/
def stripQuotedStrings (cmd : String) : String :=
  let l1 := stripDqAux (cmd.data.length + 1) cmd.data
  String.mk (stripSqAux (l1.length + 1) l1)

/-! ### Ready-pattern heuristic (`guessReadyPattern`) -/

/-- `guessReadyPattern` from `command-guard.ts`: a cascade of
case-insensitive regex tests with a literal fallback. -/
def guessReadyPattern (command : String) : String :=
  if reTest true (rcat [RE.wb, rstr "next", RE.wb]) command then "ready on|started server"
  else if reTest true (RE.alt (rcat [RE.wb, rstr "vite", RE.wb])
      (rcat [rstr "vue-cli-service", RE.wb])) command then "ready in|Local:"
  else if reTest true (rcat [RE.wb, rstr "nuxt", RE.wb]) command then "Listening on|Nitro started"
  else if reTest true (RE.alt (rcat [RE.wb, rstr "angular", RE.wb])
      (rcat [rstr "ng", wsPlus, rstr "serve"])) command then "compiled successfully|listening on"
  else if reTest true (RE.alt (rcat [RE.wb, rstr "django", RE.wb])
      (rcat [rstr "manage.py", wsPlus, rstr "runserver"])) command then "Starting development server"
  else if reTest true (rcat [RE.wb, rstr "flask", RE.wb]) command then "Running on"
  else if reTest true (rcat [RE.wb, rstr "rails", RE.wb]) command then "Listening on"
  else if reTest true (rcat [RE.wb, rstr "tail", RE.wb, dotStar, rstr "-f"]) command then ".*"
  else "listening on|ready|started|running"

/-! ### Guard settings, verdicts and the AI second opinion

`resolveGuardSettings` fills every field, defaulting the five category
flags and `enabled` to `true`, the pattern lists to `[]` and `aiReview`
to `false`.  Custom patterns are stored as the raw string paired with
the compiled case-insensitive test; a pattern whose compilation throws
is skipped by the source's `try/catch`, which is the same as a test that
never fires. -/

/-- A fully-resolved `CommandGuardSettings`. -/
structure GuardSettings where
  enabled : Bool
  blockDestructive : Bool
  blockHanging : Bool
  blockNetworkExfil : Bool
  blockPrivilegeEsc : Bool
  blockShellInjection : Bool
  customDenyPatterns : List (String × (String → Bool))
  customAllowPatterns : List (String × (String → Bool))
  aiReview : Bool

/-- `DEFAULT_GUARD_SETTINGS`. -/
def defaultGuardSettings : GuardSettings :=
  { enabled := true, blockDestructive := true, blockHanging := true,
    blockNetworkExfil := true, blockPrivilegeEsc := true, blockShellInjection := true,
    customDenyPatterns := [], customAllowPatterns := [], aiReview := false }

/-- Is the `blockX` flag of a category switched on? -/
def categoryEnabled (s : GuardSettings) : RuleCategory → Bool
  | .destructive => s.blockDestructive
  | .hanging => s.blockHanging
  | .networkExfil => s.blockNetworkExfil
  | .privilegeEsc => s.blockPrivilegeEsc
  | .shellInjection => s.blockShellInjection

/-- The `GuardVerdict` record.  Optional JS fields are `Option`s;
`promotedToBackground` is `false` when absent. -/
structure GuardVerdict where
  allowed : Bool
  reason : Option String
  sanitised : String
  rule : Option String
  promotedToBackground : Bool
  suggestedReadyPattern : Option String
deriving DecidableEq

/-- What the `guard` role's chat call produced, as seen by
`aiReviewCommand`: a parsed object with a truthy/falsy `safe` field, an
unparseable response, or a thrown provider error. -/
inductive AiChatOutcome where
  | parsedSafe (reason : String)
  | parsedUnsafe (reason : String)
  | unparseable
  | providerError (msg : String)
deriving DecidableEq

/-- `aiReviewCommand`'s result `{safe, reason}` as a function of the
provider outcome. -/
def aiReviewCommand : AiChatOutcome → Bool × String
  | .parsedSafe r => (true, r)
  | .parsedUnsafe r => (false, r)
  | .unparseable => (false, "AI review response could not be parsed — blocking by default")
  | .providerError m => (true, "AI review failed (" ++ m ++ ") — allowing by default")

/-! ### The core guard function (`guardCommand`) -/

/-- The text a deny rule is matched against: heredoc-stripped for
shell-injection rules, heredoc-stripped *then* quote-stripped for
hanging rules, the trimmed command otherwise (the loop body of
`guardCommand`). -/
def ruleText (trimmed strippedInj : String) : RuleCategory → String
  | .shellInjection => strippedInj
  | .hanging => stripQuotedStrings strippedInj
  | _ => trimmed

/-- The `DENY_RULES` loop: first rule whose category is enabled, that is
not a hanging rule on a background step, and whose pattern matches its
category's text. -/
def findDenyHit (s : GuardSettings) (isBackground : Bool)
    (trimmed strippedInj : String) : Option DenyRule :=
  DENY_RULES.find? fun r =>
    categoryEnabled s r.category &&
    !(decide (r.category = .hanging) && isBackground) &&
    reTest r.icase r.pattern (ruleText trimmed strippedInj r.category)

/-- The verdict `guardCommand` builds from a deny-rule hit: a hanging
rule auto-promotes to background instead of blocking, every other
category denies. -/
def verdictOfHit (trimmed : String) (r : DenyRule) : GuardVerdict :=
  if r.category = .hanging then
    { allowed := true, sanitised := trimmed, rule := some r.id,
      reason := some ("[" ++ r.id ++ "] Auto-promoted to background: " ++ r.reason),
      promotedToBackground := true,
      suggestedReadyPattern := some (guessReadyPattern trimmed) }
  else
    { allowed := false, sanitised := trimmed,
      reason := some ("[" ++ r.id ++ "] " ++ r.reason), rule := some r.id,
      promotedToBackground := false, suggestedReadyPattern := none }

/-- The tail of `guardCommand` once no built-in rule fired: custom deny
patterns, then the optional AI review, then allow. -/
def guardAfterRules (trimmed : String) (s : GuardSettings) (ai : AiChatOutcome) :
    GuardVerdict :=
  match s.customDenyPatterns.find? (fun p => p.2 trimmed) with
  | some p =>
    { allowed := false, sanitised := trimmed,
      reason := some ("[custom] Blocked by custom deny pattern: " ++ p.1),
      rule := some ("custom:" ++ p.1),
      promotedToBackground := false, suggestedReadyPattern := none }
  | none =>
    if s.aiReview then
      let review := aiReviewCommand ai
      if !review.1 then
        { allowed := false, sanitised := trimmed,
          reason := some ("[ai-review] " ++ review.2), rule := some "ai-review",
          promotedToBackground := false, suggestedReadyPattern := none }
      else
        { allowed := true, reason := none, sanitised := trimmed, rule := none,
          promotedToBackground := false, suggestedReadyPattern := none }
    else
      { allowed := true, reason := none, sanitised := trimmed, rule := none,
        promotedToBackground := false, suggestedReadyPattern := none }

/-- `guardCommand` from `command-guard.ts`, with the settings already
resolved and the AI-review chat outcome passed as an oracle. -/
def guardCommand (command : String) (isBackground : Bool) (s : GuardSettings)
    (ai : AiChatOutcome) : GuardVerdict :=
  if !s.enabled then
    { allowed := true, reason := none, sanitised := command, rule := none,
      promotedToBackground := false, suggestedReadyPattern := none }
  else
    let trimmed := jsTrim command
    match s.customAllowPatterns.find? (fun p => p.2 trimmed) with
    | some p =>
      { allowed := true, reason := none, sanitised := trimmed,
        rule := some ("allow:" ++ p.1),
        promotedToBackground := false, suggestedReadyPattern := none }
    | none =>
      match findDenyHit s isBackground trimmed (stripHeredocBodies trimmed) with
      | some r => verdictOfHit trimmed r
      | none => guardAfterRules trimmed s ai

/-- A fixed AI outcome for calls where `aiReview` is off (the value is
irrelevant there). -/
def noAi : AiChatOutcome := AiChatOutcome.providerError ""

/-! ### Shared utilities: `truncate` and `retryWithBackoff`

From `utils.ts`.  `truncate` returns the text unchanged when
`text.length <= maxLength` and otherwise appends an ellipsis to the
first `maxLength` characters.  `retryWithBackoff` runs up to
`maxRetries + 1` attempts, returns the first attempt that does not
throw (whatever its value — a non-zero exit code is not a throw), and
re-throws the last error when every attempt threw; the backoff sleeps
between attempts do not affect the value and are not modelled. -/

/-- `truncate` from `utils.ts`. -/
def truncate (text : String) (maxLength : Nat) : String :=
  if text.length ≤ maxLength then text
  else String.mk (text.data.take maxLength ++ [ellipsisChar])

/-- `{stdout, stderr, exitCode}` of a sandbox exec. -/
structure ExecutionResult where
  stdout : String
  stderr : String
  exitCode : Int
deriving DecidableEq

/-- What one `attemptExecution()` call did: produced a result or threw. -/
inductive AttemptOutcome where
  | ok (r : ExecutionResult)
  | thrown (msg : String)
deriving DecidableEq

/-- The attempt loop of `retryWithBackoff`: `attempt` is the current
attempt index, the second argument the number of attempts still allowed
after this one. -/
def retryLoop (att : Nat → AttemptOutcome) : Nat → Nat → AttemptOutcome
  | attempt, 0 => att attempt
  | attempt, Nat.succ remaining =>
    match att attempt with
    | .ok r => .ok r
    | .thrown _ => retryLoop att (attempt + 1) remaining

/-- `retryWithBackoff fn {maxRetries}` as a function of the per-attempt
outcomes. -/
def retryWithBackoff (att : Nat → AttemptOutcome) (maxRetries : Nat) : AttemptOutcome :=
  retryLoop att 0 maxRetries

/-- How many attempts `retryWithBackoff` consumed. -/
def attemptsUsed (att : Nat → AttemptOutcome) : Nat → Nat → Nat
  | _, 0 => 1
  | attempt, Nat.succ remaining =>
    match att attempt with
    | .ok _ => 1
    | .thrown _ => 1 + attemptsUsed att (attempt + 1) remaining

/-! ### Mission worker data model (`mission-worker`)

Statuses and records as used by `executeStep` and the `runMission` step
loop.  JS falsy coercions (`step.timeout_ms || DEFAULT`,
`step.command || 'echo "no command"'`, …) are modelled explicitly:
numeric fields use `0` for null, string fields use `Option` with
`some ""` still counting as falsy where the source uses `||`. -/

/-- `MissionStatus` (wire-exact alphabet of §6). -/
inductive MissionStatus where
  | queued | planning | waitingPlanApproval | executing | paused
  | waitingInput | validating | waitingReview | completed | failed
deriving DecidableEq

/-- `MissionStep.status`. -/
inductive StepStatus where
  | pending | inProgress | done | failed | blocked
deriving DecidableEq

/-- A mission-step row as the worker sees it (fields that
`executeStep` / the step loop read or write). -/
structure StepRecord where
  id : Nat
  order_index : Nat
  description : String
  command : Option String
  status : StepStatus
  /-- `timeout_ms`; `0` models a null row value (both are JS-falsy) -/
  timeout_ms : Nat
  retryable : Bool
  /-- `max_retries`; `0` models a null row value -/
  max_retries : Nat
  background : Bool
  ready_pattern : Option String
deriving DecidableEq

/-- `DEFAULT_STEP_TIMEOUT_MS` -/
def DEFAULT_STEP_TIMEOUT_MS : Nat := 5 * 60 * 1000

/-- `DEFAULT_MAX_RETRIES` -/
def DEFAULT_MAX_RETRIES : Nat := 2

/-- `STDOUT_TAIL_LENGTH` -/
def STDOUT_TAIL_LENGTH : Nat := 5000

/-- `STDERR_TAIL_LENGTH` -/
def STDERR_TAIL_LENGTH : Nat := 3000

/-- `step.command || 'echo "no command"'` -/
def rawCommandOf (step : StepRecord) : String :=
  match step.command with
  | none => "echo " ++ String.mk [dqc] ++ "no command" ++ String.mk [dqc]
  | some c => if c = "" then "echo " ++ String.mk [dqc] ++ "no command" ++ String.mk [dqc] else c

/-- The final `mission-steps` patch written by `executeStep` (the interim
`IN_PROGRESS` patch is overwritten by it; absent keys are `none`). -/
structure StepPatch where
  status : StepStatus
  exit_code : Option Int
  retry_count : Option Nat
  duration_ms : Option Nat
  result_summary : Option String
  stdout_tail : Option String
  stderr_tail : Option String
deriving DecidableEq

/-- The value `executeStep` returns to the step loop. -/
structure ExecStepReturn where
  exitCode : Int
  stdout : String
  stderr : String
  durationMs : Nat
  retries : Nat
deriving DecidableEq

/-- Everything observable about one `executeStep` call: its return
value, the final persisted patch, and the in-memory `step` object as the
caller sees it afterwards (the source mutates `step.background` /
`step.ready_pattern` on auto-promotion but never `step.status`). -/
structure ExecuteStepOutcome where
  ret : ExecStepReturn
  finalPatch : StepPatch
  inMemory : StepRecord
deriving DecidableEq

/-- `executeStep` from the mission worker.  `att` gives the outcome of
each `attemptExecution()` call (foreground or background — the step
executor treats both identically), `durationMs` the wall-clock duration
oracle. -/
def executeStep (step : StepRecord) (s : GuardSettings) (ai : AiChatOutcome)
    (att : Nat → AttemptOutcome) (durationMs : Nat) : ExecuteStepOutcome :=
  let rawCommand := rawCommandOf step
  let maxRetries := if step.retryable
    then (if step.max_retries = 0 then DEFAULT_MAX_RETRIES else step.max_retries)
    else 0
  -- `let actualRetries = 0` — never incremented anywhere in the source
  let actualRetries : Nat := 0
  let verdict := guardCommand rawCommand step.background s ai
  if !verdict.allowed then
    let blockedRet : ExecStepReturn :=
      { exitCode := -2, stdout := "",
        stderr := "Command blocked: " ++ verdict.reason.getD "undefined",
        durationMs := durationMs, retries := 0 }
    let blockedPatch : StepPatch :=
      { status := .blocked, exit_code := none, retry_count := none,
        duration_ms := none,
        result_summary := some ("Blocked by command guard: " ++ verdict.reason.getD "undefined"),
        stdout_tail := none, stderr_tail := none }
    { ret := blockedRet, finalPatch := blockedPatch, inMemory := step }
  else
    -- `verdict.suggestedReadyPattern || 'listening on|ready|started'`
    let promotedPattern := match verdict.suggestedReadyPattern with
      | some p => if p = "" then "listening on|ready|started" else p
      | none => "listening on|ready|started"
    let step1 :=
      if verdict.promotedToBackground && !step.background then
        { step with background := true, ready_pattern := some promotedPattern }
      else step
    let outcome := if maxRetries > 0 then retryWithBackoff att maxRetries else att 0
    let lastResult : ExecutionResult := match outcome with
      | .ok r => r
      | .thrown m =>
        { stdout := "", stderr := if m = "" then "Step execution failed" else m,
          exitCode := -1 }
    let doneRet : ExecStepReturn :=
      { exitCode := lastResult.exitCode, stdout := lastResult.stdout,
        stderr := lastResult.stderr, durationMs := durationMs, retries := actualRetries }
    let donePatch : StepPatch :=
      { status := if lastResult.exitCode = 0 then .done else .failed,
        exit_code := some lastResult.exitCode,
        retry_count := some actualRetries,
        duration_ms := some durationMs,
        result_summary := some ("exit=" ++ toString lastResult.exitCode ++
          " duration=" ++ toString durationMs ++ "ms"),
        stdout_tail := some (truncate lastResult.stdout STDOUT_TAIL_LENGTH),
        stderr_tail := some (truncate lastResult.stderr STDERR_TAIL_LENGTH) }
    { ret := doneRet, finalPatch := donePatch, inMemory := step1 }

/-! ### The step-failure check of the `runMission` step loop

After `executeStep` returns, the loop body runs (mission worker,
`EXECUTING` stage):

```
if (result.exitCode !== 0) {
  if (step.status === 'FAILED') {
    await patchMissionStatus(app, mission.id, 'FAILED',
      { fail_reason: `Step ${step.order_index} failed.` })
    break
  }
}
```

where `step` is the *in-memory* object from `loadPendingMissionSteps`.
-/

/-- What the loop did right after a step execution. -/
structure StepLoopOutcome where
  missionStatus : MissionStatus
  failReason : Option String
  breakLoop : Bool
deriving DecidableEq

/-- The post-execution check of the step loop. -/
def stepLoopAfterExec (current : MissionStatus) (inMemory : StepRecord)
    (exitCode : Int) : StepLoopOutcome :=
  if exitCode ≠ 0 then
    if inMemory.status = .failed then
      { missionStatus := .failed,
        failReason := some ("Step " ++ toString inMemory.order_index ++ " failed."),
        breakLoop := true }
    else { missionStatus := current, failReason := none, breakLoop := false }
  else { missionStatus := current, failReason := none, breakLoop := false }

/-- One full iteration of the step loop for an already-generated
command: execute the step, then run the failure check on the in-memory
step object. -/
def runStepIteration (current : MissionStatus) (step : StepRecord)
    (s : GuardSettings) (ai : AiChatOutcome) (att : Nat → AttemptOutcome)
    (durationMs : Nat) : ExecuteStepOutcome × StepLoopOutcome :=
  let r := executeStep step s ai att durationMs
  (r, stepLoopAfterExec current r.inMemory r.ret.exitCode)

/-! ### Replanning (`removePendingMissionSteps` / `createStepsFromPlan`) -/

/-- A `PlanStep` coming back from the planner. -/
structure PlanStep where
  description : String
  command : Option String
  timeoutMs : Option Nat
  retryable : Option Bool
  background : Option Bool
  readyPattern : Option String
deriving DecidableEq

/-- The maximum `order_index` among existing rows, `0` when there are
none — what the `$sort: {order_index: -1}, $limit: 1` query yields. -/
def maxOrderIndex (steps : List StepRecord) : Nat :=
  steps.foldl (fun m r => Nat.max m r.order_index) 0

/-- `removePendingMissionSteps`: delete exactly the rows whose status is
`PENDING`. -/
def removePendingMissionSteps (steps : List StepRecord) : List StepRecord :=
  steps.filter (fun r => r.status ≠ .pending)

/-- The creation loop of `createStepsFromPlan` (`index` starts at 0; row
ids are assigned by the store and irrelevant here, so they are 0). -/
def createStepsAux (startOrder : Nat) : Nat → List PlanStep → List StepRecord
  | _, [] => []
  | idx, p :: rest =>
    { id := 0,
      order_index := startOrder + idx + 1,
      description := p.description,
      command := match p.command with
        | some c => if c = "" then none else some c
        | none => none,
      status := .pending,
      timeout_ms := p.timeoutMs.getD DEFAULT_STEP_TIMEOUT_MS,
      retryable := p.retryable.getD false,
      max_retries := if p.retryable.getD false then DEFAULT_MAX_RETRIES else 0,
      background := p.background.getD false,
      ready_pattern := match p.readyPattern with
        | some r => if r = "" then none else some r
        | none => none } :: createStepsAux startOrder (idx + 1) rest

/-- `createStepsFromPlan`, run against the rows existing at insert
time. -/
def createStepsFromPlan (existing : List StepRecord) (plan : List PlanStep) :
    List StepRecord :=
  createStepsAux (maxOrderIndex existing) 0 plan

/-- The `PLANNING` stage's replan: delete `PENDING` rows, then append
the new wave (the store after both calls). -/
def replan (steps : List StepRecord) (plan : List PlanStep) : List StepRecord :=
  let kept := removePendingMissionSteps steps
  kept ++ createStepsFromPlan kept plan

/-! ### Sandbox driver: persist flag, teardown, and exec settling

`resolveSandboxOptions` computes the `persist` flag from the
`OPENJULES_SANDBOX_PERSIST` environment variable (when set) or the
`execution.persistSandbox` setting (`!== false`, so an absent setting
counts as persisting).  `teardown` stops and removes the container,
then deletes the host workspace directory iff the instance's stored
persist flag (falling back to `shouldPersistSandbox()` for untracked
entries in the map) is false; for an instance id it is not tracking it
does nothing at all.

`command` and `backgroundCommand` are modelled in discrete time.
`command` resolves exactly when its demuxed exec stream ends — its
`timeoutMs` parameter is declared but never read in the source.
`backgroundCommand` settles at the earliest of: ready-pattern match,
pid-death detection, tail-stream end, and the `setTimeout` firing at
`timeoutMs || 120_000`. -/

/-- The `persist` flag of `resolveSandboxOptions`. -/
def resolvePersist (envPersist : Option String) (persistSandbox : Option Bool) : Bool :=
  match envPersist with
  | some v => v ≠ "false" && v ≠ "0"
  | none => !(persistSandbox = some false)

/-- `shouldPersistSandbox()` (env-only default used by `teardown` for
untracked map entries). -/
def shouldPersistSandbox (env : Option String) : Bool :=
  let flag := jsTrim (String.map Char.toLower (env.getD "true"))
  !(flag = "false" || flag = "0" || flag = "no")

/-- The inputs `teardown` consults about an instance. -/
structure TeardownInput where
  /-- is the instance id in `this.instances`? -/
  tracked : Bool
  /-- `this.persistByInstance.get(instanceId)` -/
  persistEntry : Option Bool
  /-- `process.env.OPENJULES_SANDBOX_PERSIST` -/
  envPersist : Option String
deriving DecidableEq

/-- Does `teardown` delete the workspace directory? -/
def teardownRemovesDir (t : TeardownInput) : Bool :=
  t.tracked && !(t.persistEntry.getD (shouldPersistSandbox t.envPersist))

/-- Whether the workspace directory exists after `teardown`. -/
def dirPresentAfterTeardown (present : Bool) (t : TeardownInput) : Bool :=
  if teardownRemovesDir t then false else present

/-- The demuxed exec stream of a foreground `command` call, in discrete
time: its chunks, whether/when it ends, and what `exec.inspect()`
reports afterwards. -/
structure ExecStream where
  stdoutChunks : List String
  stderrChunks : List String
  /-- `none` = the stream never ends -/
  endsAt : Option Nat
  inspectExitCode : Option Int
deriving DecidableEq

set_option linter.unusedVariables false in
/-- `DockerSandboxInstance.command`: resolves (with its result and the
time of resolution) iff the exec stream ends.  The `timeoutMs` argument
is accepted, as in the source signature, but never consulted (the
linter agrees). -/
def commandModel (stream : ExecStream) (timeoutMs : Option Nat) :
    Option (ExecutionResult × Nat) :=
  match stream.endsAt with
  | none => none
  | some t =>
    some ({ stdout := String.join stream.stdoutChunks,
            stderr := String.join stream.stderrChunks,
            exitCode := stream.inspectExitCode.getD (-1) }, t)

/-- `timeoutMs || 120_000` (`0` is falsy in JS). -/
def effectiveTimeout (timeoutMs : Option Nat) : Nat :=
  match timeoutMs with
  | some t => if t = 0 then 120000 else t
  | none => 120000

/-- When the three racing events of `backgroundCommand` would fire
(`none` = never). -/
structure BgBehavior where
  matchAt : Option Nat
  pidDeadAt : Option Nat
  streamEndAt : Option Nat
deriving DecidableEq

/-- The time at which `backgroundCommand` settles (resolves or
rejects): the earliest of pattern match, pid death, stream end and the
timeout timer. -/
def bgSettleTime (b : BgBehavior) (timeoutMs : Option Nat) : Nat :=
  let tmo := effectiveTimeout timeoutMs
  min tmo (min (b.matchAt.getD tmo) (min (b.pidDeadAt.getD tmo) (b.streamEndAt.getD tmo)))

/-! ### Concrete inputs used by the claims -/

/-- `String.mk` and `.data` are mutually inverse. -/
theorem string_mk_data (s : String) : String.mk s.data = s := rfl

/-- A step as the loop hands it to `executeStep` after the coder filled
in a command that will exit non-zero. -/
def c1Step : StepRecord :=
  { id := 1, order_index := 1, description := "failing step", command := some "exit 1",
    status := .pending, timeout_ms := 300000, retryable := false, max_retries := 0,
    background := false, ready_pattern := none }

/-- An execution oracle whose command exits with code 1. -/
def c1Att : Nat → AttemptOutcome :=
  fun _ => .ok { stdout := "", stderr := "boom", exitCode := 1 }

/-- A step whose command is the destructive `rm -rf /`. -/
def c6Step : StepRecord :=
  { id := 2, order_index := 1, description := "destructive step", command := some "rm -rf /",
    status := .pending, timeout_ms := 300000, retryable := false, max_retries := 0,
    background := false, ready_pattern := none }

/-- An oracle that is never reached for a blocked step (it would
succeed). -/
def okAtt : Nat → AttemptOutcome :=
  fun _ => .ok { stdout := "done", stderr := "", exitCode := 0 }

/-- A retryable step's oracle: the first two attempts throw, the third
succeeds. -/
def retryAtt : Nat → AttemptOutcome := fun n =>
  if n < 2 then .thrown "ECONNRESET" else .ok { stdout := "ok", stderr := "", exitCode := 0 }

/-- A retryable step. -/
def retryStep : StepRecord :=
  { id := 3, order_index := 2, description := "retryable step", command := some "exit 1",
    status := .pending, timeout_ms := 300000, retryable := true, max_retries := 2,
    background := false, ready_pattern := none }

/-! ## Claim C10 — `retry_count` and `retries` are always 0

The source declares `let actualRetries = 0` and never increments it;
both the value returned by `executeStep` and the persisted
`retry_count` are that constant, however many attempts
`retryWithBackoff` actually burned. -/

/-- Claim C10: for every step execution that completes (success,
failure or blocked), the `retries` value returned by the Step Executor
is 0, and whenever the final step patch carries a `retry_count` it is
0 — for every step, settings, AI outcome, attempt oracle and duration,
i.e. regardless of how many backoff retries actually happened. -/
theorem C10_retry_count_always_zero (step : StepRecord) (s : GuardSettings)
    (ai : AiChatOutcome) (att : Nat → AttemptOutcome) (d : Nat) :
    (executeStep step s ai att d).ret.retries = 0 ∧
    ((executeStep step s ai att d).finalPatch.retry_count = none ∨
      (executeStep step s ai att d).finalPatch.retry_count = some 0) := by
  unfold executeStep
  by_cases h : (guardCommand (rawCommandOf step) step.background s ai).allowed <;>
    simp [h]

/-- The retry oracle really does burn three attempts for `retryStep`
(maxRetries = 2), yet `executeStep` still reports `retries = 0` and
persists `retry_count = 0`: the counter is dead code. -/
theorem retries_burned_but_not_counted :
    attemptsUsed retryAtt 0 2 = 3 ∧
    (executeStep retryStep defaultGuardSettings noAi retryAtt 9).ret.retries = 0 ∧
    (executeStep retryStep defaultGuardSettings noAi retryAtt 9).finalPatch.retry_count = some 0 ∧
    (executeStep retryStep defaultGuardSettings noAi retryAtt 9).ret.exitCode = 0 := by
  decide

/-! ## Claim C7 — `timeoutMs` and sandbox exec settling

The foreground `command` awaits only the end of its demuxed exec
stream: the `timeoutMs` parameter appears in its signature and is never
read, so the call's settling is decided solely by the stream and may
never happen.  `backgroundCommand` does honour the timeout: a
`setTimeout` at `timeoutMs || 120_000` races the ready-pattern match,
the pid-death poll and the stream end, so it always settles by the
effective timeout. -/

/-- A foreground exec whose stream never ends. -/
def divergentStream : ExecStream :=
  { stdoutChunks := [], stderrChunks := [], endsAt := none, inspectExitCode := none }

/-- Counterexample to claim C7 as stated: with an explicit
`timeoutMs = 5`, the foreground `command` call still never settles when
the exec stream never ends — and its behaviour with `timeoutMs = 5` is
identical to its behaviour with no timeout at all. -/
theorem C7_command_ignores_timeout_counterexample :
    commandModel divergentStream (some 5) = none ∧
    commandModel divergentStream (some 5) = commandModel divergentStream none := by
  exact ⟨rfl, rfl⟩

/-- Claim C7, amended: the foreground `command`'s outcome is
independent of the supplied `timeoutMs` (the argument is never
consulted), while `backgroundCommand` settles no later than the
effective timeout `timeoutMs || 120 000`. -/
theorem C7_amended_timeout_semantics :
    (∀ (stream : ExecStream) (t1 t2 : Option Nat),
      commandModel stream t1 = commandModel stream t2) ∧
    (∀ (b : BgBehavior) (tmo : Option Nat),
      bgSettleTime b tmo ≤ effectiveTimeout tmo) ∧
    effectiveTimeout (some 77) = 77 ∧
    effectiveTimeout none = 120000 ∧
    effectiveTimeout (some 0) = 120000 := by
  refine ⟨fun stream t1 t2 => rfl, fun b tmo => Nat.min_le_left _ _, rfl, rfl, rfl⟩

/-! ## Claim C3 — the sandbox `persist` default

`resolveSandboxOptions` computes
`persist = envPersist !== undefined ? ... : (execution.persistSandbox !== false)`.
With neither the environment variable nor the setting present, the
right-hand side is `undefined !== false`, i.e. **true** — the sandbox
is persisted by default and the workspace directory survives
teardown. -/

/-- Counterexample to claim C3 as stated: with neither
`OPENJULES_SANDBOX_PERSIST` nor `execution.persistSandbox` set, the
resolved persist flag is `true` (not `false`), and a tracked instance's
workspace directory is still present after `Teardown`. -/
theorem C3_persist_default_counterexample :
    resolvePersist none none = true ∧
    dirPresentAfterTeardown true
      { tracked := true, persistEntry := some (resolvePersist none none),
        envPersist := none } = true := by
  decide

/-- Claim C3, amended: with neither source set the persist flag
defaults to `true`; and for a tracked instance the workspace directory
is present after teardown iff it was present before **and** the stored
persist flag is `true` (so it is absent, for a previously present
directory, iff `persist = false`). -/
theorem C3_amended_persist_semantics :
    resolvePersist none none = true ∧
    (∀ (p present : Bool) (e : Option String),
      dirPresentAfterTeardown present
        { tracked := true, persistEntry := some p, envPersist := e } = (present && p)) := by
  refine ⟨rfl, fun p present e => ?_⟩
  cases p <;> cases present <;>
    simp [dirPresentAfterTeardown, teardownRemovesDir, Option.getD]

/-! ## Claim C5 — output-tail truncation

`truncate` keeps any text of length ≤ `maxLength` unchanged (so an
input of exactly the limit gets **no** ellipsis), and for longer text
returns `maxLength` characters **plus** the ellipsis — one character
more than the limit.  The persisted tails are therefore bounded by
5001/3001 characters, not 5000/3000, and the exact-length boundary is
not truncated. -/

theorem truncate_length_le (s : String) (n : Nat) : (truncate s n).length ≤ n + 1 := by
  unfold truncate
  split
  · omega
  · rw [String.length_mk, List.length_append, List.length_take]
    simp

theorem truncate_of_le (s : String) (n : Nat) (h : s.length ≤ n) : truncate s n = s := by
  unfold truncate
  rw [if_pos h]

/-- A string of exactly 5000 `a`s. -/
def a5000 : String := String.mk (List.replicate 5000 'a')

/-- A string of 5001 `a`s. -/
def a5001 : String := String.mk (List.replicate 5001 'a')

/-- Counterexample to claim C5 as stated: a stdout of exactly 5000
characters is persisted unchanged — no ellipsis is appended (its last
character is still `a`) — and a stdout of 5001 characters is persisted
as a 5001-character tail, exceeding the claimed 5000 bound. -/
theorem C5_truncate_boundary_counterexample :
    truncate a5000 5000 = a5000 ∧
    a5000.data.getLast? = some 'a' ∧
    (truncate a5001 5000).length = 5001 := by
  refine ⟨?_, ?_, ?_⟩
  · apply truncate_of_le
    rw [a5000, String.length_mk, List.length_replicate]
  · rw [a5000]
    rw [show (5000 : Nat) = 4999 + 1 from rfl, List.replicate_succ']
    exact List.getLast?_concat _
  · have hlen : a5001.data.length = 5001 := by
      rw [a5001]
      exact List.length_replicate 5001 'a'
    have hlen2 : a5001.length = 5001 := hlen
    unfold truncate
    rw [if_neg (by omega), String.length_mk, List.length_append, List.length_take, hlen]
    simp

/-- Claim C5, amended: every persisted `stdout_tail` has length at most
5001 characters and every `stderr_tail` at most 3001 (the truncation
limit plus the appended ellipsis); an input whose length is at most the
limit — in particular exactly the limit — is persisted unchanged,
without an ellipsis. -/
theorem C5_amended_tail_bounds :
    (∀ (step : StepRecord) (s : GuardSettings) (ai : AiChatOutcome)
       (att : Nat → AttemptOutcome) (d : Nat) (t : String),
      (executeStep step s ai att d).finalPatch.stdout_tail = some t →
        t.length ≤ STDOUT_TAIL_LENGTH + 1) ∧
    (∀ (step : StepRecord) (s : GuardSettings) (ai : AiChatOutcome)
       (att : Nat → AttemptOutcome) (d : Nat) (t : String),
      (executeStep step s ai att d).finalPatch.stderr_tail = some t →
        t.length ≤ STDERR_TAIL_LENGTH + 1) ∧
    (∀ (s : String) (n : Nat), s.length = n → truncate s n = s) := by
  refine ⟨?_, ?_, fun s n h => truncate_of_le s n (le_of_eq h)⟩
  · intro step s ai att d t ht
    unfold executeStep at ht
    by_cases h : (guardCommand (rawCommandOf step) step.background s ai).allowed
    · simp only [h, Bool.not_true, Bool.false_eq_true, if_false] at ht
      simp only [Option.some.injEq] at ht
      rw [← ht]
      exact truncate_length_le _ _
    · simp [h] at ht
  · intro step s ai att d t ht
    unfold executeStep at ht
    by_cases h : (guardCommand (rawCommandOf step) step.background s ai).allowed
    · simp only [h, Bool.not_true, Bool.false_eq_true, if_false] at ht
      simp only [Option.some.injEq] at ht
      rw [← ht]
      exact truncate_length_le _ _
    · simp [h] at ht

/-- Witness for C5: a concrete run whose stdout tail is persisted;
the theorem bounds its length, and the exact-boundary clause applied at
a concrete 5-character string of length 5. -/
theorem C5_amended_tail_bounds_witness :
    ("done".length ≤ STDOUT_TAIL_LENGTH + 1) ∧ truncate "abcde" 5 = "abcde" := by
  constructor
  · exact C5_amended_tail_bounds.1 c1Step defaultGuardSettings noAi okAtt 3 "done"
      (by decide)
  · exact C5_amended_tail_bounds.2.2 "abcde" 5 (by decide)

/-! ## Claim C1 — a failed step does not fail the mission (code bug)

After `executeStep`, the loop checks `step.status === 'FAILED'` on the
**in-memory** step object.  `executeStep` patches the persisted row to
`FAILED` but never assigns `step.status`, so the object still carries
the `PENDING` it was loaded with: the check is always false, the
mission stays `EXECUTING`, and the loop proceeds to the next step —
contradicting both the code's own comment ("if it fails, we transition
mission to FAILED") and the specification. -/

/-- Claim C1's failing input: a pending, non-retryable step whose
command exits 1.  The persisted step status becomes `FAILED` and
`executeStep` returns exit code 1, yet the loop's failure check sees the
stale in-memory status (`PENDING`, unchanged by `executeStep`), so the
mission is *not* transitioned to `FAILED`, no fail reason is recorded,
and the loop does not break — the code diverges from the claim. -/
theorem C1_stale_status_check_bug :
    (runStepIteration .executing c1Step defaultGuardSettings noAi c1Att 10).1.finalPatch.status
      = .failed ∧
    (runStepIteration .executing c1Step defaultGuardSettings noAi c1Att 10).1.ret.exitCode = 1 ∧
    (runStepIteration .executing c1Step defaultGuardSettings noAi c1Att 10).1.inMemory.status
      = .pending ∧
    (runStepIteration .executing c1Step defaultGuardSettings noAi c1Att 10).2 =
      { missionStatus := .executing, failReason := none, breakLoop := false } := by
  decide

/-! ## Claim C6 — a guard block keeps the mission executing -/

/-- When the guard is enabled, no allow-pattern matches, and the deny
scan hits a rule, `guardCommand` returns exactly the verdict built from
that hit. -/
theorem guardCommand_eq_verdictOfHit (cmd : String) (bg : Bool) (s : GuardSettings)
    (ai : AiChatOutcome) (r : DenyRule)
    (he : s.enabled = true)
    (ha : s.customAllowPatterns.find? (fun p => p.2 (jsTrim cmd)) = none)
    (hh : findDenyHit s bg (jsTrim cmd) (stripHeredocBodies (jsTrim cmd)) = some r) :
    guardCommand cmd bg s ai = verdictOfHit (jsTrim cmd) r := by
  unfold guardCommand
  rw [he]
  simp only [Bool.not_true, Bool.false_eq_true, if_false, ha, hh]

/-- Claim C6: when the guard denies a step's command (the deny scan
hits a non-hanging rule), the step is persisted as `BLOCKED` with a
result summary naming the rule id, the Step Executor returns exit code
-2, and the mission does not transition to `FAILED` — the loop leaves
it `EXECUTING`, records no fail reason and does not break, so the next
pending step runs. -/
theorem C6_guard_block_keeps_mission_executing (step : StepRecord) (s : GuardSettings)
    (ai : AiChatOutcome) (att : Nat → AttemptOutcome) (d : Nat) (r : DenyRule)
    (hp : step.status = .pending)
    (he : s.enabled = true)
    (ha : s.customAllowPatterns.find? (fun p => p.2 (jsTrim (rawCommandOf step))) = none)
    (hh : findDenyHit s step.background (jsTrim (rawCommandOf step))
            (stripHeredocBodies (jsTrim (rawCommandOf step))) = some r)
    (hcat : r.category ≠ .hanging) :
    (runStepIteration .executing step s ai att d).1.ret.exitCode = -2 ∧
    (runStepIteration .executing step s ai att d).1.finalPatch.status = .blocked ∧
    (runStepIteration .executing step s ai att d).1.finalPatch.result_summary =
      some ("Blocked by command guard: " ++ ("[" ++ r.id ++ "] " ++ r.reason)) ∧
    (runStepIteration .executing step s ai att d).2 =
      { missionStatus := .executing, failReason := none, breakLoop := false } := by
  have hg : guardCommand (rawCommandOf step) step.background s ai =
      verdictOfHit (jsTrim (rawCommandOf step)) r :=
    guardCommand_eq_verdictOfHit _ _ _ _ _ he ha hh
  have hv : verdictOfHit (jsTrim (rawCommandOf step)) r =
      { allowed := false, sanitised := jsTrim (rawCommandOf step),
        reason := some ("[" ++ r.id ++ "] " ++ r.reason), rule := some r.id,
        promotedToBackground := false, suggestedReadyPattern := none } := by
    unfold verdictOfHit
    rw [if_neg hcat]
  unfold runStepIteration executeStep
  simp only [hg, hv, Bool.not_false, Option.getD_some, if_true, ite_true]
  refine ⟨trivial, trivial, trivial, ?_⟩
  unfold stepLoopAfterExec
  rw [if_pos (by decide), if_neg (by rw [hp]; decide)]

/-- Witness for C6: the scenario of the spec — a step whose command is
`rm -rf /` is blocked by `rm-rf-root`, returns -2, is persisted
`BLOCKED` with the rule id in its summary, and the mission stays
`EXECUTING`. -/
theorem C6_guard_block_witness :
    (runStepIteration .executing c6Step defaultGuardSettings noAi okAtt 4).1.ret.exitCode = -2 ∧
    (runStepIteration .executing c6Step defaultGuardSettings noAi okAtt 4).1.finalPatch.status
      = .blocked ∧
    (runStepIteration .executing c6Step defaultGuardSettings noAi okAtt 4).1.finalPatch.result_summary =
      some ("Blocked by command guard: " ++
        ("[" ++ rmRfRootRule.id ++ "] " ++ rmRfRootRule.reason)) ∧
    (runStepIteration .executing c6Step defaultGuardSettings noAi okAtt 4).2 =
      { missionStatus := .executing, failReason := none, breakLoop := false } :=
  C6_guard_block_keeps_mission_executing c6Step defaultGuardSettings noAi okAtt 4 rmRfRootRule
    (by decide) rfl rfl (by decide) (by decide)

/-! ## Claim C8 — guard determinism

The rule pipeline is a pure function of `(command, settings)`, but when
`aiReview = true` and no earlier stage decides, the verdict also
depends on the guard role's chat response — two evaluations of the same
`(command, settings)` can disagree. -/

/-- Default settings with the AI review switched on. -/
def aiOnSettings : GuardSettings := { defaultGuardSettings with aiReview := true }

/-- Counterexample to claim C8 as stated: with `aiReview = true`, the
same `(command, settings)` pair evaluated twice — once when the guard
model answers `safe:true`, once when it answers `safe:false` — yields
two different verdicts (the second is a denial by `ai-review`). -/
theorem C8_ai_review_nondeterminism_counterexample :
    guardCommand "ls" false aiOnSettings (AiChatOutcome.parsedSafe "fine") ≠
      guardCommand "ls" false aiOnSettings (AiChatOutcome.parsedUnsafe "bad") ∧
    (guardCommand "ls" false aiOnSettings (AiChatOutcome.parsedUnsafe "bad")).rule
      = some "ai-review" := by
  decide

/-- Claim C8, amended: the guard is deterministic in
`(command, isBackground, settings)` whenever `aiReview = false` — the
verdict does not depend on the AI oracle at all; with `aiReview = true`
the verdict is still a pure function, but of the AI response as well. -/
theorem C8_amended_determinism (cmd : String) (bg : Bool) (s : GuardSettings)
    (a1 a2 : AiChatOutcome) (h : s.aiReview = false) :
    guardCommand cmd bg s a1 = guardCommand cmd bg s a2 := by
  unfold guardCommand guardAfterRules
  rw [h]
  simp

/-- Witness for C8: the default settings have `aiReview = false`, and
two maximally different AI outcomes produce the same verdict on a
concrete command. -/
theorem C8_amended_determinism_witness :
    guardCommand "ls" false defaultGuardSettings (AiChatOutcome.parsedSafe "fine") =
      guardCommand "ls" false defaultGuardSettings (AiChatOutcome.parsedUnsafe "bad") :=
  C8_amended_determinism "ls" false defaultGuardSettings _ _ rfl

/-! ## Claim C4 — hanging commands are promoted, not blocked

A deny-scan hit on a hanging rule produces
`allowed = true, promotedToBackground = true,
suggestedReadyPattern = guessReadyPattern(trimmed)`, and hanging rules
are skipped entirely when `isBackground = true`.  But the spec's
concrete example is wrong: `guessReadyPattern "npm start"` falls
through every framework test to the literal fallback
`listening on|ready|started|running` — `ready on|started server` is the
`next`-branch pattern, which `npm start` does not reach. -/

/-- Counterexample to claim C4 as stated: for the command `npm start`
the guard promotes to background, but the suggested ready pattern is
the fallback `listening on|ready|started|running`, not the claimed
`ready on|started server`. -/
theorem C4_npm_start_pattern_counterexample :
    (guardCommand "npm start" false defaultGuardSettings noAi).promotedToBackground = true ∧
    (guardCommand "npm start" false defaultGuardSettings noAi).suggestedReadyPattern =
      some "listening on|ready|started|running" ∧
    "listening on|ready|started|running" ≠ "ready on|started server" := by
  decide

/-- Claim C4, amended: (1) whenever the deny scan (guard enabled, no
allow-pattern matched, `isBackground = false`) hits a hanging rule, the
guard does not block — it returns `allowed = true`,
`promotedToBackground = true` and
`suggestedReadyPattern = guessReadyPattern(trimmed command)`; (2) a
deny-scan hit with `isBackground = true` is never a hanging rule; and
(3) for `npm start` the suggested pattern is the fallback
`listening on|ready|started|running`. -/
theorem C4_amended_hanging_promotion :
    (∀ (cmd : String) (s : GuardSettings) (ai : AiChatOutcome) (r : DenyRule),
      s.enabled = true →
      s.customAllowPatterns.find? (fun p => p.2 (jsTrim cmd)) = none →
      findDenyHit s false (jsTrim cmd) (stripHeredocBodies (jsTrim cmd)) = some r →
      r.category = .hanging →
      guardCommand cmd false s ai =
        { allowed := true, sanitised := jsTrim cmd, rule := some r.id,
          reason := some ("[" ++ r.id ++ "] Auto-promoted to background: " ++ r.reason),
          promotedToBackground := true,
          suggestedReadyPattern := some (guessReadyPattern (jsTrim cmd)) }) ∧
    (∀ (s : GuardSettings) (t1 t2 : String) (r : DenyRule),
      findDenyHit s true t1 t2 = some r → r.category ≠ .hanging) ∧
    guardCommand "npm start" false defaultGuardSettings noAi =
      { allowed := true, sanitised := "npm start", rule := some "npm-start",
        reason := some ("[npm-start] Auto-promoted to background: " ++ npmStartRule.reason),
        promotedToBackground := true,
        suggestedReadyPattern := some "listening on|ready|started|running" } := by
  refine ⟨?_, ?_, by decide⟩
  · intro cmd s ai r he ha hh hcat
    rw [guardCommand_eq_verdictOfHit cmd false s ai r he ha hh]
    unfold verdictOfHit
    rw [if_pos hcat]
  · intro s t1 t2 r h
    intro hcat
    have hm := List.find?_some h
    rw [hcat] at hm
    simp at hm

/-- Witness for C4: clause (1) applied to the concrete hit of
`npm-start` on `npm start`. -/
theorem C4_amended_hanging_promotion_witness :
    guardCommand "npm start" false defaultGuardSettings noAi =
      { allowed := true, sanitised := jsTrim "npm start", rule := some npmStartRule.id,
        reason := some ("[" ++ npmStartRule.id ++ "] Auto-promoted to background: " ++
          npmStartRule.reason),
        promotedToBackground := true,
        suggestedReadyPattern := some (guessReadyPattern (jsTrim "npm start")) } :=
  C4_amended_hanging_promotion.1 "npm start" defaultGuardSettings noAi npmStartRule
    rfl rfl (by decide) (by decide)

/-! ## Claim C9 — replanning deletes only `PENDING` rows and appends
fresh, consecutive `order_index` values -/

theorem le_foldl_max (l : List StepRecord) (a : Nat) :
    a ≤ l.foldl (fun m r => Nat.max m r.order_index) a := by
  induction l generalizing a with
  | nil => exact Nat.le_refl a
  | cons x xs ih => exact le_trans (Nat.le_max_left a x.order_index) (ih _)

theorem mem_le_foldl_max (l : List StepRecord) (a : Nat) (r : StepRecord) (h : r ∈ l) :
    r.order_index ≤ l.foldl (fun m q => Nat.max m q.order_index) a := by
  induction l generalizing a with
  | nil => cases h
  | cons x xs ih =>
    cases h with
    | head => exact le_trans (Nat.le_max_right a r.order_index) (le_foldl_max xs _)
    | tail _ hm => exact ih _ hm

/-- Every existing row's `order_index` is bounded by `maxOrderIndex`. -/
theorem le_maxOrderIndex (steps : List StepRecord) (r : StepRecord) (h : r ∈ steps) :
    r.order_index ≤ maxOrderIndex steps :=
  mem_le_foldl_max steps 0 r h

theorem createStepsAux_get_order (so : Nat) (plan : List PlanStep) :
    ∀ (idx i : Nat) (h : i < (createStepsAux so idx plan).length),
      ((createStepsAux so idx plan).get ⟨i, h⟩).order_index = so + idx + i + 1 := by
  induction plan with
  | nil => intro idx i h; simp [createStepsAux] at h
  | cons p rest ih =>
    intro idx i h
    cases i with
    | zero => rfl
    | succ j =>
      have hj : j < (createStepsAux so (idx + 1) rest).length := by
        have := h
        simp only [createStepsAux, List.length_cons] at this
        omega
      have := ih (idx + 1) j hj
      simp only [createStepsAux, List.get_cons_succ]
      rw [this]
      omega

theorem createStepsAux_order_gt (so : Nat) (plan : List PlanStep) :
    ∀ (idx : Nat) (w : StepRecord), w ∈ createStepsAux so idx plan →
      so < w.order_index := by
  induction plan with
  | nil => intro idx w h; cases h
  | cons p rest ih =>
    intro idx w h
    cases h with
    | head => simp only [createStepsAux]; omega
    | tail _ hm => exact ih (idx + 1) w hm

/-- Claim C9: replanning (a) keeps every `DONE`/`FAILED` row in the
store, (b) removes only rows that were `PENDING`, (c) gives the new
wave strictly increasing, gap-free indices
`maxOrderIndex(existing) + 1, + 2, …` counted over the rows existing at
insert time, (d) which are strictly greater than every surviving row's
index; (e) the resulting store is exactly the survivors followed by the
new wave. -/
theorem C9_replan_frame (steps : List StepRecord) (plan : List PlanStep) :
    (∀ r, r ∈ steps → (r.status = .done ∨ r.status = .failed) → r ∈ replan steps plan) ∧
    (∀ r, r ∈ steps → r ∉ replan steps plan → r.status = .pending) ∧
    (∀ (i : Nat) (h : i < (createStepsFromPlan (removePendingMissionSteps steps) plan).length),
      ((createStepsFromPlan (removePendingMissionSteps steps) plan).get ⟨i, h⟩).order_index =
        maxOrderIndex (removePendingMissionSteps steps) + i + 1) ∧
    (∀ r, r ∈ removePendingMissionSteps steps →
      ∀ w, w ∈ createStepsFromPlan (removePendingMissionSteps steps) plan →
        r.order_index < w.order_index) ∧
    replan steps plan =
      removePendingMissionSteps steps ++
        createStepsFromPlan (removePendingMissionSteps steps) plan := by
  refine ⟨?_, ?_, ?_, ?_, rfl⟩
  · intro r hmem hst
    unfold replan
    apply List.mem_append_left
    unfold removePendingMissionSteps
    refine List.mem_filter.mpr ⟨hmem, ?_⟩
    rcases hst with h | h <;> simp [h]
  · intro r hmem hnot
    by_contra hne
    apply hnot
    unfold replan
    apply List.mem_append_left
    unfold removePendingMissionSteps
    exact List.mem_filter.mpr ⟨hmem, by simp [hne]⟩
  · intro i h
    have := createStepsAux_get_order (maxOrderIndex (removePendingMissionSteps steps)) plan 0 i h
    rw [show ∀ a : Nat, a + 0 + i + 1 = a + i + 1 from fun a => by omega] at this
    exact this
  · intro r hr w hw
    have h1 : r.order_index ≤ maxOrderIndex (removePendingMissionSteps steps) :=
      le_maxOrderIndex _ _ hr
    have h2 : maxOrderIndex (removePendingMissionSteps steps) < w.order_index :=
      createStepsAux_order_gt _ plan 0 w hw
    omega

/-- A finished step row. -/
def c9Done : StepRecord :=
  { id := 11, order_index := 1, description := "done step", command := some "ls",
    status := .done, timeout_ms := 300000, retryable := false, max_retries := 0,
    background := false, ready_pattern := none }

/-- A pending step row awaiting deletion by the replan. -/
def c9Pending : StepRecord :=
  { id := 12, order_index := 2, description := "old pending step", command := none,
    status := .pending, timeout_ms := 300000, retryable := false, max_retries := 0,
    background := false, ready_pattern := none }

/-- A two-step plan wave. -/
def c9Plan : List PlanStep :=
  [{ description := "new step one", command := none, timeoutMs := none,
     retryable := none, background := none, readyPattern := none },
   { description := "new step two", command := none, timeoutMs := none,
     retryable := none, background := none, readyPattern := none }]

/-- Witness for C9: in a store with one `DONE` and one `PENDING` row,
replanning with a two-step wave keeps the `DONE` row and gives the
first new step index `maxOrderIndex + 1`. -/
theorem C9_replan_frame_witness :
    c9Done ∈ replan [c9Done, c9Pending] c9Plan ∧
    ((createStepsFromPlan (removePendingMissionSteps [c9Done, c9Pending]) c9Plan).get
        ⟨0, by decide⟩).order_index =
      maxOrderIndex (removePendingMissionSteps [c9Done, c9Pending]) + 0 + 1 :=
  ⟨(C9_replan_frame [c9Done, c9Pending] c9Plan).1 c9Done (by decide) (Or.inl rfl),
   (C9_replan_frame [c9Done, c9Pending] c9Plan).2.2.1 0 (by decide)⟩

/-! ## Claim C2 — the heredoc property

For the quoted form `cat > f <<'E' … E`, the heredoc body is stripped
before shell-injection matching, so no string `X` whose lines never trim
to the delimiter `E` can produce a shell-injection denial.  But the
universal claim is false: an `X` that *contains* a line `E` closes the
heredoc early, and the remainder of `X` is matched — exactly as the
shell itself would execute it. -/

/-- The single-quote character as a string. -/
def sqS : String := String.mk [sqc]

/-- `cat > f <<'E'` -/
def quotedHeredocHeader : String := "cat > f <<" ++ sqS ++ "E" ++ sqS

/-- `cat > f <<'E'\n` + X + `\nE` -/
def quotedHeredocCmd (X : String) : String :=
  quotedHeredocHeader ++ "\n" ++ X ++ "\nE"

/-- `cat > f <<E` -/
def unquotedHeredocHeader : String := "cat > f <<E"

/-- `cat > f <<E\n` + X + `\nE` -/
def unquotedHeredocCmd (X : String) : String :=
  unquotedHeredocHeader ++ "\n" ++ X ++ "\nE"

/-- The rule ids of the `blockShellInjection` category. -/
def injectionRuleIds : List String :=
  ["eval-exec", "backtick-injection", "fork-bomb", "base64-decode-pipe",
   "curl-pipe-shell", "wget-pipe-shell"]

/-- Is this verdict a denial attributed to a shell-injection rule? -/
def isInjectionDenial (v : GuardVerdict) : Bool :=
  !v.allowed &&
    (match v.rule with
     | some id => decide (id ∈ injectionRuleIds)
     | none => false)

theorem heredocCmd_data (H X : String) :
    (H ++ "\n" ++ X ++ "\nE").data = H.data ++ '\n' :: (X.data ++ '\n' :: ['E']) := by
  simp only [String.data_append, List.append_assoc]
  rfl

theorem jsTrim_fixed (s : String)
    (h1 : ∀ c, s.data.head? = some c → isWsChar c = false)
    (h2 : ∀ c, s.data.getLast? = some c → isWsChar c = false) :
    jsTrim s = s := by
  unfold jsTrim
  rw [jsTrimList_id s.data h1 h2]

theorem heredocCmd_getLast (H X : String) :
    (H ++ "\n" ++ X ++ "\nE").data.getLast? = some 'E' := by
  rw [heredocCmd_data]
  rw [show H.data ++ '\n' :: (X.data ++ '\n' :: ['E']) =
        (H.data ++ '\n' :: (X.data ++ ['\n'])) ++ ['E'] from by
    simp [List.append_assoc]]
  exact List.getLast?_concat _

/-- Both heredoc commands are already trimmed (they start with `c` and
end with `E`). -/
theorem jsTrim_heredocCmd (H X : String)
    (hH : H.data.head? = some 'c') :
    jsTrim (H ++ "\n" ++ X ++ "\nE") = H ++ "\n" ++ X ++ "\nE" := by
  apply jsTrim_fixed
  · intro c hc
    rw [heredocCmd_data] at hc
    cases hd : H.data with
    | nil => rw [hd] at hH; cases hH
    | cons a l =>
      rw [hd] at hH hc
      simp only [List.cons_append, List.head?_cons, Option.some.injEq] at hH hc
      rw [← hc, hH]
      decide
  · intro c hc
    rw [heredocCmd_getLast] at hc
    simp only [Option.some.injEq] at hc
    rw [← hc]
    decide

theorem heredocCmd_split (H X : String) (hH : '\n' ∉ H.data) :
    splitOnNl (H ++ "\n" ++ X ++ "\nE").data =
      H.data :: (splitOnNl X.data ++ [['E']]) := by
  rw [heredocCmd_data, splitOnNl_append, splitOnNl_append,
    splitOnNl_no_nl H.data hH]
  rfl

theorem stripHeredocAux_skip (lines rest : List (List Char)) (delim : List Char)
    (h : ∀ l ∈ lines, jsTrimList l ≠ delim) :
    stripHeredocAux (lines ++ rest) true delim = stripHeredocAux rest true delim := by
  induction lines with
  | nil => rfl
  | cons l ls ih =>
    have hl : jsTrimList l ≠ delim := h l (List.mem_cons_self _ _)
    simp only [List.cons_append, stripHeredocAux, if_neg hl]
    exact ih (fun x hx => h x (List.mem_cons_of_mem _ hx))

theorem stripHeredocAux_keep (lines : List (List Char)) (delim : List Char)
    (h : ∀ l ∈ lines, heredocOpener l = none) :
    stripHeredocAux lines false delim = lines := by
  induction lines with
  | nil => rfl
  | cons l ls ih =>
    have hl := h l (List.mem_cons_self _ _)
    simp only [stripHeredocAux, hl]
    rw [ih (fun x hx => h x (List.mem_cons_of_mem _ hx))]

/-- Under the no-early-delimiter condition, the quoted-heredoc command
is stripped down to its first line. -/
theorem stripHeredocBodies_quoted (X : String)
    (h : ∀ l ∈ splitOnNl X.data, jsTrimList l ≠ ['E']) :
    stripHeredocBodies (quotedHeredocCmd X) = quotedHeredocHeader := by
  unfold stripHeredocBodies quotedHeredocCmd
  rw [heredocCmd_split quotedHeredocHeader X (by decide)]
  have hop : heredocOpener quotedHeredocHeader.data = some ['E'] := by decide
  simp only [stripHeredocAux, hop]
  rw [stripHeredocAux_skip (splitOnNl X.data) [['E']] ['E'] h]
  rfl

/-- With no line of the command matching the quoted-heredoc opener, the
stripping pass keeps the command intact. -/
theorem stripHeredocBodies_id (cmd : String)
    (h : ∀ l ∈ splitOnNl cmd.data, heredocOpener l = none) :
    stripHeredocBodies cmd = cmd := by
  unfold stripHeredocBodies
  rw [stripHeredocAux_keep (splitOnNl cmd.data) [] h, joinNl_splitOnNl]

/-- Exhaustive shape analysis of `guardCommand`'s verdict: it is an
allow, the verdict of a deny-scan hit, a custom-pattern denial, or an
AI-review denial. -/
theorem guardCommand_cases (cmd : String) (bg : Bool) (s : GuardSettings)
    (ai : AiChatOutcome) :
    (guardCommand cmd bg s ai).allowed = true ∨
    (∃ r, findDenyHit s bg (jsTrim cmd) (stripHeredocBodies (jsTrim cmd)) = some r ∧
      guardCommand cmd bg s ai = verdictOfHit (jsTrim cmd) r) ∨
    (∃ p, (guardCommand cmd bg s ai).rule = some ("custom:" ++ p)) ∨
    (guardCommand cmd bg s ai).rule = some "ai-review" := by
  unfold guardCommand
  by_cases he : s.enabled
  · simp only [he, Bool.not_true, Bool.false_eq_true, if_false]
    cases hfa : s.customAllowPatterns.find? (fun p => p.2 (jsTrim cmd)) with
    | some p => left; rfl
    | none =>
      cases hfd : findDenyHit s bg (jsTrim cmd) (stripHeredocBodies (jsTrim cmd)) with
      | some r => right; left; exact ⟨r, rfl, rfl⟩
      | none =>
        unfold guardAfterRules
        cases hfc : s.customDenyPatterns.find? (fun p => p.2 (jsTrim cmd)) with
        | some p => right; right; left; exact ⟨p.1, rfl⟩
        | none =>
          by_cases hai : s.aiReview
          · simp only [hai, if_true]
            cases hrev : (aiReviewCommand ai).1 with
            | true => left; simp [hrev]
            | false => right; right; right; simp [hrev]
          · simp only [hai, Bool.false_eq_true, if_false]
            left
            trivial
  · simp [he]

/-- Deny rules whose id is in the shell-injection list belong to the
shell-injection category. -/
theorem injection_id_category :
    ∀ r ∈ DENY_RULES, r.id ∈ injectionRuleIds →
      r.category = .shellInjection := by
  decide

/-- No shell-injection pattern matches the bare quoted-heredoc opener
line `cat > f <<'E'`. -/
theorem injection_rules_miss_header :
    ∀ r ∈ DENY_RULES, r.category = .shellInjection →
      reTest r.icase r.pattern quotedHeredocHeader = false := by
  decide

/-- A custom deny rule name (`custom:` + pattern) never equals a
shell-injection rule id. -/
theorem custom_rule_not_injection (raw : String) :
    ("custom:" ++ raw) ∉ injectionRuleIds := by
  have key : ∀ id : String, id.data.take 7 ≠ "custom:".data → "custom:" ++ raw ≠ id := by
    intro id hne h
    have hdata := congrArg String.data h
    rw [String.data_append] at hdata
    have h4 := congrArg (List.take 7) hdata
    rw [show (7 : Nat) = "custom:".data.length from rfl, List.take_left] at h4
    exact hne h4.symm
  intro hmem
  simp only [injectionRuleIds, List.mem_cons, List.not_mem_nil, or_false] at hmem
  rcases hmem with h | h | h | h | h | h
  · exact key "eval-exec" (by decide) h
  · exact key "backtick-injection" (by decide) h
  · exact key "fork-bomb" (by decide) h
  · exact key "base64-decode-pipe" (by decide) h
  · exact key "curl-pipe-shell" (by decide) h
  · exact key "wget-pipe-shell" (by decide) h

/-- `ai-review` is not a shell-injection rule id. -/
theorem ai_review_not_injection : "ai-review" ∉ injectionRuleIds := by
  decide

/-- Half 1 of the amended claim: for any `X` none of whose lines trims
to the delimiter `E`, the quoted-heredoc command is never denied by a
shell-injection rule — for every settings object, background flag and
AI outcome. -/
theorem c2_quoted_not_injection_denial (X : String) (bg : Bool) (s : GuardSettings)
    (ai : AiChatOutcome)
    (h : ∀ l ∈ splitOnNl X.data, jsTrimList l ≠ ['E']) :
    isInjectionDenial (guardCommand (quotedHeredocCmd X) bg s ai) = false := by
  have htrim : jsTrim (quotedHeredocCmd X) = quotedHeredocCmd X := by
    unfold quotedHeredocCmd
    exact jsTrim_heredocCmd quotedHeredocHeader X (by decide)
  rcases guardCommand_cases (quotedHeredocCmd X) bg s ai with hal | ⟨r, hfd, hv⟩ | ⟨p, hcu⟩ | hair
  · unfold isInjectionDenial
    rw [hal]
    rfl
  · rw [htrim, stripHeredocBodies_quoted X h] at hfd
    have hmem : r ∈ DENY_RULES := List.mem_of_find?_eq_some hfd
    have hpred := List.find?_some hfd
    simp only [Bool.and_eq_true] at hpred
    rw [hv]
    unfold verdictOfHit
    by_cases hcat : r.category = .hanging
    · rw [if_pos hcat]
      rfl
    · rw [if_neg hcat]
      unfold isInjectionDenial
      simp only [Bool.not_false, Bool.true_and]
      by_cases hct : r.id ∈ injectionRuleIds
      · exfalso
        have hcati : r.category = .shellInjection := injection_id_category r hmem hct
        have hre := hpred.2
        rw [hcati] at hre
        have hmiss := injection_rules_miss_header r hmem hcati
        rw [show ruleText (quotedHeredocCmd X) quotedHeredocHeader .shellInjection =
              quotedHeredocHeader from rfl] at hre
        rw [hmiss] at hre
        cases hre
      · exact decide_eq_false hct
  · unfold isInjectionDenial
    rw [hcu]
    show (_ && decide (("custom:" ++ p) ∈ injectionRuleIds)) = false
    rw [decide_eq_false (custom_rule_not_injection p)]
    exact Bool.and_false _
  · unfold isInjectionDenial
    rw [hair]
    show (_ && decide (("ai-review" : String) ∈ injectionRuleIds)) = false
    rw [decide_eq_false ai_review_not_injection]
    exact Bool.and_false _

/-- Half 2 of the amended claim: for the unquoted form, as long as no
line of `X` itself matches the quoted-heredoc opener, the heredoc
stripping pass keeps the whole command — shell-injection rules are
evaluated on the text containing `X` verbatim. -/
theorem c2_unquoted_kept (X : String)
    (h : ∀ l ∈ splitOnNl X.data, heredocOpener l = none) :
    stripHeredocBodies (jsTrim (unquotedHeredocCmd X)) = unquotedHeredocCmd X := by
  have htrim : jsTrim (unquotedHeredocCmd X) = unquotedHeredocCmd X := by
    unfold unquotedHeredocCmd
    exact jsTrim_heredocCmd unquotedHeredocHeader X (by decide)
  rw [htrim]
  apply stripHeredocBodies_id
  intro l hl
  rw [show unquotedHeredocCmd X = unquotedHeredocHeader ++ "\n" ++ X ++ "\nE" from rfl,
    heredocCmd_split unquotedHeredocHeader X (by decide)] at hl
  rcases List.mem_cons.mp hl with h1 | h2
  · rw [h1]; decide
  · rcases List.mem_append.mp h2 with h3 | h4
    · exact h l h3
    · rw [List.mem_singleton.mp h4]; decide

/-- The string `E\n` + backtick + `x` + backtick: its first line closes
the quoted heredoc early. -/
def c2BadX : String := String.mk ['E', '\n', btc, 'x', btc]

/-- Counterexample to claim C2 as stated: for
`X = "E\n` + backtick-x-backtick + `"`, the quoted-heredoc command *is*
denied by the shell-injection category (rule `backtick-injection`) —
the first line of `X` terminates the heredoc, so the backticks that
follow are live shell syntax, and the guard (correctly) matches them. -/
theorem C2_quoted_heredoc_counterexample :
    isInjectionDenial
      (guardCommand (quotedHeredocCmd c2BadX) false defaultGuardSettings noAi) = true ∧
    (guardCommand (quotedHeredocCmd c2BadX) false defaultGuardSettings noAi).rule =
      some "backtick-injection" := by
  decide

/-- Claim C2, amended: (1) for every `X` none of whose lines trims to
the delimiter `E`, the guard verdict on the quoted-heredoc command
`cat > f <<'E'\n X \nE` is never a denial by a shell-injection rule —
under any settings, background flag and AI outcome; (2) for the
unquoted form `cat > f <<E\n X \nE`, provided no line of `X` itself
looks like a quoted-heredoc opener, the injection pass keeps the whole
command, so the shell-injection rules are evaluated on `X` verbatim;
and (3) concretely, the unquoted form with a backtick payload *is*
denied by the shell-injection category. -/
theorem C2_amended_heredoc_property :
    (∀ (X : String) (bg : Bool) (s : GuardSettings) (ai : AiChatOutcome),
      (∀ l ∈ splitOnNl X.data, jsTrimList l ≠ ['E']) →
      isInjectionDenial (guardCommand (quotedHeredocCmd X) bg s ai) = false) ∧
    (∀ X : String, (∀ l ∈ splitOnNl X.data, heredocOpener l = none) →
      stripHeredocBodies (jsTrim (unquotedHeredocCmd X)) = unquotedHeredocCmd X) ∧
    isInjectionDenial
      (guardCommand (unquotedHeredocCmd (String.mk [btc, 'x', btc])) false
        defaultGuardSettings noAi) = true :=
  ⟨c2_quoted_not_injection_denial, c2_unquoted_kept, by decide⟩

/-- A heredoc body full of would-be injection syntax. -/
def c2SafeX : String :=
  "hello " ++ String.mk [btc] ++ "world" ++ String.mk [btc] ++ " $(x)"

/-- Witness for C2: a quoted heredoc whose body contains backticks and
`$()` is not injection-denied, and the unquoted command with a backtick
body is kept intact by the stripping pass. -/
theorem C2_amended_heredoc_property_witness :
    isInjectionDenial
      (guardCommand (quotedHeredocCmd c2SafeX) false defaultGuardSettings noAi) = false ∧
    stripHeredocBodies (jsTrim (unquotedHeredocCmd (String.mk [btc, 'x', btc]))) =
      unquotedHeredocCmd (String.mk [btc, 'x', btc]) :=
  ⟨C2_amended_heredoc_property.1 c2SafeX false defaultGuardSettings noAi (by decide),
   C2_amended_heredoc_property.2.1 (String.mk [btc, 'x', btc]) (by decide)⟩

end OpenJules
